import Mathlib

/-!
Shallow embedding of `src/index.ts` (humblebundle-rss): a Bun HTTP server that
fetches the Humble Bundle landing page, extracts an embedded JSON payload,
validates it with zod, flattens and sorts the products, filters by category,
and renders an RSS feed and an HTML homepage.

Strings are modelled as `List Char`.  Dates (`new Date(s).getTime()`,
`toUTCString`, `toLocaleDateString`) and `JSON.parse` are modelled as explicit
function parameters, since the claims quantify over their behaviour rather
than over a concrete date parser.  Floating-point hour arithmetic is modelled
over `ℚ` (exact), machine integers do not overflow in any relevant range.
-/

namespace HumbleRss

/-- Strings of the embedded program: lists of characters. -/
abbrev Str := List Char

/-- Conversion from Lean string literals to the `Str` model. -/
def str (s : String) : Str := s.toList

/-- Decimal rendering of a natural number (used for HTTP status codes). -/
def natStr (n : Nat) : Str := (toString n).toList

/-- `leadsWith pat s = true` iff `pat` is a prefix of `s`. -/
def leadsWith : Str → Str → Bool
  | [], _ => true
  | _ :: _, [] => false
  | c :: cs, d :: ds => if c = d then leadsWith cs ds else false

/-- `containsSub pat s = true` iff `pat` occurs as a contiguous substring of `s`. -/
def containsSub (pat : Str) : Str → Bool
  | [] => leadsWith pat []
  | c :: cs => leadsWith pat (c :: cs) || containsSub pat cs

/-- Number of positions of `s` at which `pat` occurs as a contiguous substring. -/
def countSub (pat : Str) : Str → Nat
  | [] => if leadsWith pat [] then 1 else 0
  | c :: cs => (if leadsWith pat (c :: cs) then 1 else 0) + countSub pat cs

/--
One product of the upstream payload (`ProductSchema` in `src/index.ts`).
The zod schema field `"start_date|datetime"` is spelled `start_date` here
(Lean identifiers cannot contain `|`); likewise for `end_date`.
-/
structure Product where
  machine_name : Str
  tile_name : Str
  product_url : Str
  detailed_marketing_blurb : Str
  tile_image : Str
  start_date : Str
  end_date : Str
  tile_stamp : Str
deriving DecidableEq, Repr

/-- `SectionSchema`: an object with a `products` array. -/
structure Section where
  products : List Product
deriving DecidableEq, Repr

/-- `CategorySchema`: an object with a `mosaic` array of sections. -/
structure CategoryGroup where
  mosaic : List Section
deriving DecidableEq, Repr

/-- `DataSchema`: the three optional category keys. -/
structure BundleData where
  books : Option CategoryGroup
  games : Option CategoryGroup
  software : Option CategoryGroup
deriving DecidableEq, Repr

/-- `LandingPageSchema`: an object with a `data` field. -/
structure LandingPage where
  data : BundleData
deriving DecidableEq, Repr

/-- Products of all sections of one (possibly absent) category, in order:
`if (!category) continue; for (const section of category.mosaic) products.push(...section.products)`. -/
def sectionsProducts : List Section → List Product
  | [] => []
  | s :: rest => s.products ++ sectionsProducts rest

/-- Products contributed by an optional category (`continue` on absence). -/
def catProducts : Option CategoryGroup → List Product
  | none => []
  | some c => sectionsProducts c.mosaic

/-- The flattening loop of `fetchBundles`:
`for (const category of [data.books, data.games, data.software]) ...`. -/
def flattenBundles (d : BundleData) : List Product :=
  catProducts d.books ++ catProducts d.games ++ catProducts d.software

/--
`products.sort((a, b) => dateB - dateA)` — JavaScript `Array.prototype.sort`
is required to be stable (ES2019); with that comparator it is the stable sort
placing products with the larger parsed start date first.  A stable sort for a
total preorder is unique, so it is modelled by insertion sort for the relation
"the key of the left element is ≥ the key of the right element". -/
def sortBundles (parseDate : Str → Int) (ps : List Product) : List Product :=
  List.insertionSort (fun a b => parseDate b.start_date ≤ parseDate a.start_date) ps

/-- `filterByCategory`: `products.filter((p) => p.tile_stamp === category)`. -/
def filterByCategory (ps : List Product) (c : Str) : List Product :=
  ps.filter (fun p => decide (p.tile_stamp = c))

/-- The dispatcher-level use of the filter in `handleRssRequest`:
the filter runs only when a category selector is given. -/
def applyFilter : Option Str → List Product → List Product
  | none, ps => ps
  | some c, ps => filterByCategory ps c

/-! ## Extractor: the script-tag regex -/

/--
`splitFirst pat s`: the first occurrence of `pat` in `s`, as
`some (before, after)` with `s = before ++ pat ++ after` and `pat` not
occurring earlier; `none` when `pat` does not occur.
-/
def splitFirst (pat : Str) : Str → Option (Str × Str)
  | [] => if leadsWith pat [] then some ([], []) else none
  | c :: cs =>
    if leadsWith pat (c :: cs) then some ([], (c :: cs).drop pat.length)
    else
      match splitFirst pat cs with
      | some (pre, rest) => some (c :: pre, rest)
      | none => none

/-- The opening literal of `SCRIPT_TAG_REGEX`. -/
def openTag : Str :=
  str "<script id=\"landingPage-json-data\" type=\"application/json\">"

/-- The closing literal of `SCRIPT_TAG_REGEX`. -/
def closeTag : Str := str "</script>"

/--
`html.match(SCRIPT_TAG_REGEX)` followed by the `!match || !match[1]` check:
the non-greedy capture is the text from the first occurrence of the opening
literal up to the first `</script>` after it.  An empty capture is rejected,
because the empty string is falsy in `!match[1]`.
-/
def extractScript (html : Str) : Option Str :=
  match splitFirst openTag html with
  | none => none
  | some (_, rest) =>
    match splitFirst closeTag rest with
    | none => none
    | some (content, _) => if content = [] then none else some content

/-! ## JSON values and the zod validation pass -/

/-- JSON values (`JSON.parse` output).  Numbers are modelled as `Int`; the
schema only ever accepts strings, so number precision is irrelevant. -/
inductive Json where
  | null : Json
  | boolean : Bool → Json
  | number : Int → Json
  | string : Str → Json
  | array : List Json → Json
  | object : List (Str × Json) → Json

/-- Field lookup in a JSON object. -/
def lookupField : List (Str × Json) → Str → Option Json
  | [], _ => none
  | (k, v) :: rest, key => if k = key then some v else lookupField rest key

/-- `z.string()` on a required field: present and a string, or an error
naming the offending path. -/
def getStrField (path : Str) (fields : List (Str × Json)) (k : Str) :
    Except Str Str :=
  match lookupField fields k with
  | some (Json.string s) => Except.ok s
  | some _ => Except.error (path ++ str "." ++ k ++ str ": expected string")
  | none => Except.error (path ++ str "." ++ k ++ str ": required")

/--
`ProductSchema.parse`.  `u` models zod's `z.url()` check on `tile_image`
(a syntactically valid absolute URL); the claims quantify over it.
-/
def validateProduct (u : Str → Bool) (path : Str) : Json → Except Str Product
  | Json.object fields =>
    match getStrField path fields (str "machine_name") with
    | Except.error e => Except.error e
    | Except.ok mn =>
    match getStrField path fields (str "tile_name") with
    | Except.error e => Except.error e
    | Except.ok tn =>
    match getStrField path fields (str "product_url") with
    | Except.error e => Except.error e
    | Except.ok pu =>
    match getStrField path fields (str "detailed_marketing_blurb") with
    | Except.error e => Except.error e
    | Except.ok bl =>
    match getStrField path fields (str "tile_image") with
    | Except.error e => Except.error e
    | Except.ok ti =>
    if u ti then
      match getStrField path fields (str "start_date|datetime") with
      | Except.error e => Except.error e
      | Except.ok sd =>
      match getStrField path fields (str "end_date|datetime") with
      | Except.error e => Except.error e
      | Except.ok ed =>
      match getStrField path fields (str "tile_stamp") with
      | Except.error e => Except.error e
      | Except.ok ts => Except.ok ⟨mn, tn, pu, bl, ti, sd, ed, ts⟩
    else Except.error (path ++ str ".tile_image: invalid url")
  | _ => Except.error (path ++ str ": expected object")

/-- `z.array(ProductSchema)`, tracking the index in the error path. -/
def validateProducts (u : Str → Bool) (path : Str) (idx : Nat) :
    List Json → Except Str (List Product)
  | [] => Except.ok []
  | j :: rest =>
    match validateProduct u (path ++ str "." ++ natStr idx) j with
    | Except.error e => Except.error e
    | Except.ok p =>
      match validateProducts u path (idx + 1) rest with
      | Except.error e => Except.error e
      | Except.ok ps => Except.ok (p :: ps)

/-- `SectionSchema.parse`. -/
def validateSection (u : Str → Bool) (path : Str) : Json → Except Str Section
  | Json.object fields =>
    match lookupField fields (str "products") with
    | some (Json.array js) =>
      (validateProducts u (path ++ str ".products") 0 js).map Section.mk
    | some _ => Except.error (path ++ str ".products: expected array")
    | none => Except.error (path ++ str ".products: required")
  | _ => Except.error (path ++ str ": expected object")

/-- `z.array(SectionSchema)`. -/
def validateSections (u : Str → Bool) (path : Str) (idx : Nat) :
    List Json → Except Str (List Section)
  | [] => Except.ok []
  | j :: rest =>
    match validateSection u (path ++ str "." ++ natStr idx) j with
    | Except.error e => Except.error e
    | Except.ok s =>
      match validateSections u path (idx + 1) rest with
      | Except.error e => Except.error e
      | Except.ok ss => Except.ok (s :: ss)

/-- `CategorySchema.parse`. -/
def validateCategory (u : Str → Bool) (path : Str) :
    Json → Except Str CategoryGroup
  | Json.object fields =>
    match lookupField fields (str "mosaic") with
    | some (Json.array js) =>
      (validateSections u (path ++ str ".mosaic") 0 js).map CategoryGroup.mk
    | some _ => Except.error (path ++ str ".mosaic: expected array")
    | none => Except.error (path ++ str ".mosaic: required")
  | _ => Except.error (path ++ str ": expected object")

/-- `CategorySchema.optional()`: an absent key validates to `none`. -/
def validateOptCat (u : Str → Bool) (path : Str) :
    Option Json → Except Str (Option CategoryGroup)
  | none => Except.ok none
  | some j => (validateCategory u path j).map some

/-- `DataSchema.parse`. -/
def validateBundleData (u : Str → Bool) : Json → Except Str BundleData
  | Json.object fields =>
    match validateOptCat u (str "data.books") (lookupField fields (str "books")) with
    | Except.error e => Except.error e
    | Except.ok b =>
    match validateOptCat u (str "data.games") (lookupField fields (str "games")) with
    | Except.error e => Except.error e
    | Except.ok g =>
    match validateOptCat u (str "data.software")
        (lookupField fields (str "software")) with
    | Except.error e => Except.error e
    | Except.ok s => Except.ok ⟨b, g, s⟩
  | _ => Except.error (str "data: expected object")

/-- `LandingPageSchema.parse`. -/
def validateLandingPage (u : Str → Bool) : Json → Except Str LandingPage
  | Json.object fields =>
    match lookupField fields (str "data") with
    | some d => (validateBundleData u d).map LandingPage.mk
    | none => Except.error (str "data: required")
  | _ => Except.error (str "root: expected object")

/-! ## The fetch pipeline -/

/-- The upstream HTTP response (`fetch(HUMBLE_BUNDLES_URL)`). -/
structure FetchResponse where
  status : Nat
  body : Str
deriving Repr

/-- `response.ok`: status in the 2xx range. -/
def respOk (status : Nat) : Bool := decide (200 ≤ status ∧ status < 300)

/--
`fetchBundles`, as a function of the upstream response.  `parseDate` models
`new Date(s).getTime()` on ISO strings, `jparse` models `JSON.parse` (whose
`SyntaxError` message is whatever the engine produces).  Thrown exceptions are
modelled by `Except.error`.
-/
def fetchBundles (parseDate : Str → Int) (u : Str → Bool)
    (jparse : Str → Except Str Json) (resp : FetchResponse) :
    Except Str (List Product) :=
  if respOk resp.status then
    match extractScript resp.body with
    | none => Except.error (str "Could not find landingPage-json-data script tag")
    | some raw =>
      match jparse raw with
      | Except.error e => Except.error e
      | Except.ok j =>
        match validateLandingPage u j with
        | Except.error e => Except.error e
        | Except.ok lp => Except.ok (sortBundles parseDate (flattenBundles lp.data))
  else
    Except.error (str "Failed to fetch Humble Bundle page: " ++ natStr resp.status)

/-- Total number of products across all categories and sections of a payload. -/
def sectionCount : List Section → Nat
  | [] => 0
  | s :: rest => s.products.length + sectionCount rest

/-- Product count of an optional category. -/
def catCount : Option CategoryGroup → Nat
  | none => 0
  | some c => sectionCount c.mosaic

/-- `N`: total number of products in a payload. -/
def countProducts (d : BundleData) : Nat :=
  catCount d.books + catCount d.games + catCount d.software

/-! ## Escaping -/

/-- The apostrophe character. -/
def apos : Char := Char.ofNat 39

/-- `str.replace(/c/g, r)` for a single-character pattern: every occurrence
of `c` is replaced by `r`, left to right, without rescanning replacements of
earlier occurrences (for a single-character pattern this is exactly
per-character substitution). -/
def replaceAll (c : Char) (r : Str) : Str → Str
  | [] => []
  | d :: rest => (if d = c then r else [d]) ++ replaceAll c r rest

/-- `escapeXml`: the five sequential global replaces of the source, in order
`&`, `<`, `>`, `"`, apostrophe. -/
def escapeXml (s : Str) : Str :=
  replaceAll apos (str "&apos;")
    (replaceAll '"' (str "&quot;")
      (replaceAll '>' (str "&gt;")
        (replaceAll '<' (str "&lt;")
          (replaceAll '&' (str "&amp;") s))))

/-- `escapeHtml`: the four sequential global replaces of the source, in order
`&`, `<`, `>`, `"` — no apostrophe replacement. -/
def escapeHtml (s : Str) : Str :=
  replaceAll '"' (str "&quot;")
    (replaceAll '>' (str "&gt;")
      (replaceAll '<' (str "&lt;")
        (replaceAll '&' (str "&amp;") s)))

/-- Per-character escaping table, written from the spec sentence "escaped for
the five XML metacharacters"; compared against `escapeXml` in claim C4. -/
def escXmlCharSpec (c : Char) : Str :=
  if c = '&' then str "&amp;"
  else if c = '<' then str "&lt;"
  else if c = '>' then str "&gt;"
  else if c = '"' then str "&quot;"
  else if c = apos then str "&apos;"
  else [c]

/-- Per-character escaping table, written from the spec sentence "HTML-escaped
for the four metacharacters, apostrophe not escaped"; compared against
`escapeHtml` in claim C8. -/
def escHtmlCharSpec (c : Char) : Str :=
  if c = '&' then str "&amp;"
  else if c = '<' then str "&lt;"
  else if c = '>' then str "&gt;"
  else if c = '"' then str "&quot;"
  else [c]

/-- Character-by-character mapping of a string. -/
def concatMap (f : Char → Str) : Str → Str
  | [] => []
  | c :: rest => f c ++ concatMap f rest

/-! ## Feed renderer (`generateRss`) -/

/-- The fixed origin prefixed to each relative product url. -/
def origin : Str := str "https://www.humblebundle.com"

/-- Item template up to the escaped title. -/
def itemA : Str := str "    <item>\n      <title>"

/-- Between title and link. -/
def itemB : Str := str "</title>\n      <link>"

/-- Between link and the CDATA image url. -/
def itemC : Str := str "</link>\n      <description><![CDATA[<img src=\""

/-- Between image url and the raw blurb. -/
def itemD : Str := str "\" /><br/><br/>"

/-- Between the raw blurb and the formatted end date. -/
def itemE : Str := str "<br/><br/><strong>Ends:</strong> "

/-- CDATA close and pubDate open. -/
def itemF : Str := str "]]></description>\n      <pubDate>"

/-- Between pubDate and guid. -/
def itemG : Str := str "</pubDate>\n      <guid isPermaLink=\"false\">"

/-- Between guid and category. -/
def itemH : Str := str "</guid>\n      <category>"

/-- Category close and item close. -/
def itemI : Str := str "</category>\n    </item>"

/--
One `<item>` of the feed.  `toUTC` models `new Date(s).toUTCString()` and
`fmtEnd` models `new Date(s).toLocaleDateString("en-US", ...)`; both are
functions of the raw date string of the product.
-/
def rssItem (toUTC fmtEnd : Str → Str) (p : Product) : Str :=
  itemA ++ escapeXml p.tile_name ++
  itemB ++ escapeXml (origin ++ p.product_url) ++
  itemC ++ p.tile_image ++
  itemD ++ p.detailed_marketing_blurb ++
  itemE ++ fmtEnd p.end_date ++
  itemF ++ toUTC p.start_date ++
  itemG ++ escapeXml p.machine_name ++
  itemH ++ escapeXml p.tile_stamp ++
  itemI

/-- `array.join("\n")`. -/
def joinNl : List Str → Str
  | [] => []
  | [x] => x
  | x :: y :: rest => x ++ str "\n" ++ joinNl (y :: rest)

/-- Channel template up to the escaped feed title. -/
def chanA : Str :=
  str "<?xml version=\"1.0\" encoding=\"UTF-8\"?>\n<rss version=\"2.0\" xmlns:atom=\"http://www.w3.org/2005/Atom\">\n  <channel>\n    <title>"

/-- Channel template between the feed title and the build date. -/
def chanB : Str :=
  str "</title>\n    <link>https://www.humblebundle.com/bundles</link>\n    <description>Current bundles available on Humble Bundle</description>\n    <language>en-us</language>\n    <lastBuildDate>"

/-- Channel template between the build date and the canonical url. -/
def chanC : Str := str "</lastBuildDate>\n    <atom:link href=\""

/-- Channel template between the canonical url and the joined items. -/
def chanD : Str := str "\" rel=\"self\" type=\"application/rss+xml\"/>\n"

/-- Channel close. -/
def chanE : Str := str "\n  </channel>\n</rss>"

/-- `generateRss`.  `now` is `new Date().toUTCString()` at render time. -/
def generateRss (now : Str) (toUTC fmtEnd : Str → Str) (products : List Product)
    (title canonicalUrl : Str) : Str :=
  chanA ++ escapeXml title ++ chanB ++ now ++ chanC ++ canonicalUrl ++ chanD ++
  joinNl (products.map (rssItem toUTC fmtEnd)) ++ chanE

/-! ## Page renderer (`generateHomepage`) -/

/-- `hoursLeft = (endDate.getTime() - now) / (1000 * 60 * 60)`, exact over ℚ. -/
def hoursLeft (parseDate : Str → Int) (nowMs : Int) (p : Product) : ℚ :=
  ((parseDate p.end_date - nowMs : Int) : ℚ) / (1000 * 60 * 60)

/-- The urgency tier of the source:
`let statusClass = "ok"; if (hoursLeft <= 24 && hoursLeft > 0) "urgent";
else if (hoursLeft <= 168) "soon";`. -/
def statusClass (h : ℚ) : Str :=
  if h ≤ 24 ∧ 0 < h then str "urgent"
  else if h ≤ 168 then str "soon"
  else str "ok"

/-- Homepage item template up to the status class. -/
def hpA : Str := str "      <li><span class=\"entry "

/-- Between status class and the category tag. -/
def hpB : Str := str "\"><span class=\"cat\">["

/-- Between category tag and the href. -/
def hpC : Str := str "]</span> <a href=\""

/-- Between href and the title attribute. -/
def hpD : Str := str "\" title=\""

/-- Between the title attribute and the link text. -/
def hpE : Str := str "\" target=\"_blank\" rel=\"noopener noreferrer nofollow\">"

/-- Link text close. -/
def hpF : Str := str "</a></span></li>"

/-- One `<li>` of the homepage bundle list. -/
def homepageItem (parseDate : Str → Int) (nowMs : Int) (p : Product) : Str :=
  hpA ++ statusClass (hoursLeft parseDate nowMs p) ++
  hpB ++ escapeHtml p.tile_stamp ++
  hpC ++ escapeHtml (origin ++ p.product_url) ++
  hpD ++ escapeHtml p.tile_name ++
  hpE ++ escapeHtml p.tile_name ++
  hpF

/-- Homepage head: doctype through the stylesheet variables. -/
def hpHead1 : Str :=
  str "<!DOCTYPE html>\n<html lang=\"en\">\n<head>\n  <meta charset=\"UTF-8\">\n  <meta name=\"viewport\" content=\"width=device-width, initial-scale=1.0\">\n  <title>Humble Bundle RSS Feeds</title>\n  <meta name=\"description\" content=\"Unofficial RSS feeds for current Humble Bundle offerings.\">\n  <link rel=\"alternate\" type=\"application/rss+xml\" title=\"Humble Bundle RSS\" href=\"/rss\">\n  <link rel=\"icon\" type=\"image/svg+xml\" href=\"/favicon.ico\">\n  <style>\n    :root \x7b\n      --bg: #fafafa;\n      --fg: #222;\n      --muted: #666;\n      --link: #0066cc;\n      --accent: #b33;\n      --border: #ccc;\n      --green: #1a7a1a;\n      --yellow: #7a6a00;\n      --red: #b33;\n    \x7d\n    @media (prefers-color-scheme: dark) \x7b\n      :root \x7b\n        --bg: #1a1a1a;\n        --fg: #e0e0e0;\n        --muted: #888;\n        --link: #6cf;\n        --accent: #e66;\n        --border: #444;\n        --green: #5a5;\n        --yellow: #ca3;\n        --red: #e55;\n      \x7d\n    \x7d\n"

/-- Homepage head: element styles. -/
def hpHead2 : Str :=
  str "    * \x7b box-sizing: border-box; \x7d\n    body \x7b\n      font-family: ui-monospace, \"Cascadia Code\", \"Source Code Pro\", Menlo, Consolas, monospace;\n      font-size: 14px;\n      line-height: 1.6;\n      background: var(--bg);\n      color: var(--fg);\n      max-width: 72ch;\n      margin: 0 auto;\n      padding: 2rem 1rem;\n    \x7d\n    h1 \x7b font-size: 1em; font-weight: bold; margin: 0 0 0.5rem 0; \x7d\n    h2 \x7b font-size: 1em; font-weight: bold; margin: 1.5rem 0 0.5rem 0; color: var(--accent); \x7d\n    p \x7b margin: 0.5rem 0; \x7d\n    a \x7b color: var(--link); \x7d\n    a:visited \x7b color: var(--link); opacity: 0.8; \x7d\n    .meta \x7b color: var(--muted); \x7d\n    .feeds \x7b margin: 1rem 0; \x7d\n    .feeds a \x7b margin-right: 1.5em; \x7d\n    ol \x7b padding-left: 2.5em; margin: 0.5rem 0; \x7d\n    li \x7b padding: 0.15rem 0; \x7d\n    .entry \x7b display: block; white-space: nowrap; overflow: hidden; text-overflow: ellipsis; \x7d\n    .ok a \x7b color: var(--green); \x7d\n    .soon a \x7b color: var(--yellow); \x7d\n    .urgent a \x7b color: var(--red); \x7d\n  </style>\n</head>\n"

/-- Homepage head: body text through the opening of the bundle list. -/
def hpHead3 : Str :=
  str "<body>\n  <h1>HUMBLE BUNDLE RSS FEEDS</h1>\n  <p>Unofficial RSS feeds for current Humble Bundle offerings.</p>\n\n  <h2>FEEDS</h2>\n  <div class=\"feeds\">\n    <a target=\"_blank\" href=\"/rss\">/rss</a>\n    <a target=\"_blank\" href=\"/games\">/games</a>\n    <a target=\"_blank\" href=\"/books\">/books</a>\n    <a target=\"_blank\" href=\"/software\">/software</a>\n  </div>\n  <p class=\"meta\">Add any feed URL to your RSS reader.</p>\n\n  <h2>CURRENT BUNDLES</h2>\n  <div data-nosnippet>\n    <ol>\n"

/-- Homepage template before the joined items. -/
def hpHead : Str := hpHead1 ++ hpHead2 ++ hpHead3

/-- Homepage template after the joined items. -/
def hpFoot : Str :=
  str "\n    </ol>\n  </div>\n\n  <p class=\"meta\">Data from <a target=\"_blank\" href=\"https://www.humblebundle.com/bundles\">humblebundle.com</a></p>\n  <p class=\"meta\">See <a target=\"_blank\" href=\"https://github.com/zeen/humblebundle-rss\">GitHub</a> for bug reports and pull requests.</p>\n</body>\n</html>"

/-- `generateHomepage`: every product is rendered; none are filtered out. -/
def generateHomepage (parseDate : Str → Int) (nowMs : Int)
    (products : List Product) : Str :=
  hpHead ++ joinNl (products.map (homepageItem parseDate nowMs)) ++ hpFoot

/-! ## HTTP layer -/

/-- The observable parts of a `Response`: status, the two headers the source
sets, and the body.  `new Response(body, init)` defaults to status 200. -/
structure RespModel where
  status : Nat
  contentType : Option Str
  cacheControl : Option Str
  body : Str
deriving DecidableEq, Repr

/-- The shared `Cache-Control` header value. -/
def cacheHeader : Str := str "public, max-age=3600"

/-- `handleHomepage`, as a function of the pipeline outcome. -/
def handleHomepage (pipeline : Except Str (List Product))
    (parseDate : Str → Int) (nowMs : Int) : RespModel :=
  match pipeline with
  | Except.ok ps =>
    ⟨200, some (str "text/html; charset=utf-8"), some cacheHeader,
      generateHomepage parseDate nowMs ps⟩
  | Except.error e =>
    ⟨500, some (str "text/plain"), none, str "Error: " ++ e⟩

/-- `category.charAt(0).toUpperCase() + category.slice(1)`. -/
def capFirst : Str → Str
  | [] => []
  | c :: rest => c.toUpper :: rest

/-- `handleRssRequest`, as a function of the pipeline outcome.  The error
response sets no headers at all. -/
def handleRssRequest (pipeline : Except Str (List Product)) (now : Str)
    (toUTC fmtEnd : Str → Str) (canonicalUrl : Str) (category : Option Str) :
    RespModel :=
  match pipeline with
  | Except.error e =>
    ⟨500, none, none, str "Error generating RSS feed: " ++ e⟩
  | Except.ok ps =>
    let filtered := applyFilter category ps
    let title :=
      match category with
      | none => str "Humble Bundle - All Bundles"
      | some c => str "Humble Bundle - " ++ capFirst c ++ str " Bundles"
    ⟨200, some (str "application/rss+xml; charset=utf-8"), some cacheHeader,
      generateRss now toUTC fmtEnd filtered title canonicalUrl⟩

/-- The fixed favicon SVG asset. -/
def favicon : Str :=
  str "<?xml version=\"1.0\" encoding=\"UTF-8\"?>\n<svg width=\"48\" height=\"48\" viewBox=\"0 0 1024 1024\" version=\"1.1\" xmlns=\"http://www.w3.org/2000/svg\">\n  <circle cx=\"50%\" cy=\"50%\" r=\"50%\" fill=\"#D0011B\"/>\n  <path transform=\"scale(0.7,0.7) translate(220, 225)\" d=\"M765.201172,820.589844 C620.475426,820.589844 843.283203,0.189453125 843.283203,0.189453125 L694.142578,5.68434189e-14 C694.142578,5.68434189e-14 633.090481,193.090536 592.811289,407.652717 L464.271164,407.652717 C467.639745,363.532521 469.262415,318.878282 468.522971,274.491064 C462.730655,-78.7375255 255.842002,-13.3140749 163.226562,67.7578125 C75.1710315,144.824375 1.42382812,291.240234 0,403.996094 C14.0273437,403.3125 69.4453125,403.074219 69.4453125,403.074219 C69.4453125,403.074219 115.528161,192.837891 260.253906,192.837891 C404.959112,192.837891 181.810547,1013.25 181.810547,1013.25 L331.015625,1013.36133 C331.015625,1013.36133 408.132049,793.724753 446.480469,548.455078 L569.224609,547.75 C562.076645,611.218997 559.803302,681.30885 560.850849,746.400517 C566.663705,1099.62911 772.743935,1023.82674 865.359375,942.775391 C957.974815,861.703503 1027.08594,690.517578 1026.23242,608.322266 C1026.3457,608.228516 955.882812,608.892578 955.037109,608.875 C955.279297,615.365234 909.906377,820.589844 765.201172,820.589844 Z\" fill=\"white\"/>\n</svg>"

/--
The `Bun.serve` fetch handler: exact-path dispatch.  `pipeline` is the result
of the request's own `fetchBundles` call (each pipeline-triggering route
performs an independent fetch; the claims never compare two routes' fetches).
`canonicalUrl` is `url.origin + url.pathname`.
-/
def serverFetch (pipeline : Except Str (List Product)) (parseDate : Str → Int)
    (nowMs : Int) (now : Str) (toUTC fmtEnd : Str → Str)
    (reqOrigin path : Str) : RespModel :=
  let canonicalUrl := reqOrigin ++ path
  if path = str "/" then
    handleHomepage pipeline parseDate nowMs
  else if path = str "/rss" then
    handleRssRequest pipeline now toUTC fmtEnd canonicalUrl none
  else if path = str "/games" then
    handleRssRequest pipeline now toUTC fmtEnd canonicalUrl (some (str "games"))
  else if path = str "/books" then
    handleRssRequest pipeline now toUTC fmtEnd canonicalUrl (some (str "books"))
  else if path = str "/software" then
    handleRssRequest pipeline now toUTC fmtEnd canonicalUrl (some (str "software"))
  else if path = str "/favicon.ico" then
    ⟨200, some (str "image/svg+xml"), some cacheHeader, favicon⟩
  else
    ⟨404, none, none, str "Not Found"⟩

/-- The required keys of `ProductSchema`, in schema order. -/
def productKeys : List Str :=
  [str "machine_name", str "tile_name", str "product_url",
   str "detailed_marketing_blurb", str "tile_image",
   str "start_date|datetime", str "end_date|datetime", str "tile_stamp"]

/--
A product object violating `ProductSchema`, written from the claim's words:
some required key is missing, or is stored with a non-string value (wrong
field type), or the stored image URL fails the URL check `u`.
-/
def malformedProduct (u : Str → Bool) (pflds : List (Str × Json)) : Prop :=
  (∃ k, k ∈ productKeys ∧
    (lookupField pflds k = none ∨
      ∃ v, lookupField pflds k = some v ∧ ∀ s, v ≠ Json.string s)) ∨
  (∃ ti, lookupField pflds (str "tile_image") = some (Json.string ti) ∧
    u ti = false)

/-- A product object missing every required field. -/
def badProductJson : Json := Json.object []

/-- A payload whose single games product is malformed. -/
def badPayload : Json :=
  Json.object
    [(str "data", Json.object
      [(str "games", Json.object
        [(str "mosaic", Json.array
          [Json.object [(str "products", Json.array [badProductJson])]])])])]

/-! ## Concrete end-to-end payload (claim C5) -/

/-- The single games product of the end-to-end example. -/
def sampleProductJson : Json :=
  Json.object
    [(str "machine_name", Json.string (str "sku1")),
     (str "tile_name", Json.string (str "Cool & Fun Game")),
     (str "product_url", Json.string (str "/games/sku1")),
     (str "detailed_marketing_blurb", Json.string (str "A blurb")),
     (str "tile_image", Json.string (str "https://example.com/img.png")),
     (str "start_date|datetime", Json.string (str "2024-01-01T00:00:00Z")),
     (str "end_date|datetime", Json.string (str "2024-01-10T00:00:00Z")),
     (str "tile_stamp", Json.string (str "games"))]

/-- The end-to-end payload: one games section, one product, no other category. -/
def samplePayload : Json :=
  Json.object
    [(str "data", Json.object
      [(str "games", Json.object
        [(str "mosaic", Json.array
          [Json.object [(str "products", Json.array [sampleProductJson])]])])])]

/-- An upstream page body carrying the marker element. -/
def sampleHtml : Str :=
  str "<html>" ++ openTag ++ str "PAYLOAD" ++ closeTag ++ str "</html>"

/-- The pipeline result for the sample page.  `JSON.parse` is instantiated
with the function returning the sample payload. -/
def samplePipeline : Except Str (List Product) :=
  fetchBundles (fun _ => 0) (fun _ => true) (fun _ => Except.ok samplePayload)
    ⟨200, sampleHtml⟩

/-- The `/games` response over the sample payload. -/
def gamesResp : RespModel :=
  serverFetch samplePipeline (fun _ => 0) 0 [] (fun _ => [])
    (fun _ => str "January 10, 2024") (str "https://hbrss.example") (str "/games")

/-- The `/books` response over the sample payload. -/
def booksResp : RespModel :=
  serverFetch samplePipeline (fun _ => 0) 0 [] (fun _ => [])
    (fun _ => str "January 10, 2024") (str "https://hbrss.example") (str "/books")

/-! ## Helper lemmas -/

theorem sectionsProducts_length (ss : List Section) :
    (sectionsProducts ss).length = sectionCount ss := by
  induction ss with
  | nil => rfl
  | cons s rest ih => simp [sectionsProducts, sectionCount, ih]

theorem catProducts_length (oc : Option CategoryGroup) :
    (catProducts oc).length = catCount oc := by
  cases oc with
  | none => rfl
  | some c => exact sectionsProducts_length c.mosaic

theorem flattenBundles_length (d : BundleData) :
    (flattenBundles d).length = countProducts d := by
  simp [flattenBundles, countProducts, sectionsProducts_length,
    catProducts_length, Nat.add_assoc]

/-! ## Claims C1, C3, C10 -/

/--
Claim C1, amended.  On the homepage, for hours-remaining `h`: `urgent` when
`0 < h ≤ 24`; `soon` when `24 < h ≤ 168` AND ALSO when `h ≤ 0` (an already
ended item is classified `soon`, not `ok`); `ok` exactly when `168 < h`.
Every item is rendered: the homepage maps its item renderer over the whole
product list, filtering nothing.
-/
theorem C1_urgency_tiers :
    (∀ h : ℚ,
      (0 < h ∧ h ≤ 24 → statusClass h = str "urgent") ∧
      (24 < h ∧ h ≤ 168 → statusClass h = str "soon") ∧
      (h ≤ 0 → statusClass h = str "soon") ∧
      (168 < h → statusClass h = str "ok")) ∧
    (∀ (pd : Str → Int) (nowMs : Int) (ps : List Product),
      generateHomepage pd nowMs ps =
        hpHead ++ joinNl (ps.map (homepageItem pd nowMs)) ++ hpFoot ∧
      (ps.map (homepageItem pd nowMs)).length = ps.length) := by
  constructor
  · intro h
    refine ⟨fun hh => ?_, fun hh => ?_, fun hh => ?_, fun hh => ?_⟩
    · simp only [statusClass]
      rw [if_pos ⟨hh.2, hh.1⟩]
    · simp only [statusClass]
      rw [if_neg (by rintro ⟨hc, -⟩; linarith [hh.1]), if_pos hh.2]
    · simp only [statusClass]
      rw [if_neg (by rintro ⟨-, hc⟩; linarith), if_pos (by linarith)]
    · simp only [statusClass]
      rw [if_neg (by rintro ⟨hc, -⟩; linarith), if_neg (by intro hc; linarith)]
  · intro pd nowMs ps
    exact ⟨rfl, by simp⟩

/-- Claim C1 witness: concrete tiers via the theorem. -/
theorem C1_urgency_tiers_witness :
    statusClass 12 = str "urgent" ∧ statusClass 100 = str "soon" ∧
    statusClass (-5) = str "soon" ∧ statusClass 240 = str "ok" := by
  have t := C1_urgency_tiers.1
  exact ⟨(t 12).1 ⟨by norm_num, by norm_num⟩,
    (t 100).2.1 ⟨by norm_num, by norm_num⟩,
    (t (-5)).2.2.1 (by norm_num),
    (t 240).2.2.2 (by norm_num)⟩

/--
Claim C1 counterexample: an item whose end timestamp is 5 hours in the past
(hours-remaining = −5) is classified `soon` by the code, not `ok` as the
claim states.
-/
theorem C1_ended_is_soon_not_ok :
    statusClass (-5) = str "soon" ∧ ¬ (statusClass (-5) = str "ok") := by decide

/--
Claim C3: the flattened (and sorted) list of a valid payload with `N`
products has length exactly `N`; filtering by a category selector keeps
exactly the items whose tag equals the selector (exact, case-sensitive
equality of the stored tag); with no selector the list is unchanged.
-/
theorem C3_flatten_length_and_filter :
    (∀ (pd : Str → Int) (d : BundleData),
      (sortBundles pd (flattenBundles d)).length = countProducts d) ∧
    (∀ (c : Str) (ps : List Product) (x : Product),
      x ∈ filterByCategory ps c ↔ x ∈ ps ∧ x.tile_stamp = c) ∧
    (∀ ps : List Product, applyFilter none ps = ps) := by
  refine ⟨fun pd d => ?_, fun c ps x => ?_, fun ps => rfl⟩
  · rw [sortBundles, List.length_insertionSort, flattenBundles_length]
  · simp [filterByCategory, List.mem_filter]

/--
Claim C10: for every selector (including the no-selector dispatcher path)
the filter output is a subsequence of its input — every retained element
occurs in the input and relative order is preserved; the embedding is pure,
so the input list is unchanged.
-/
theorem C10_filter_subsequence :
    ∀ (ps : List Product) (c : Str) (o : Option Str),
      List.Sublist (filterByCategory ps c) ps ∧
      List.Sublist (applyFilter o ps) ps := by
  intro ps c o
  refine ⟨List.filter_sublist ps, ?_⟩
  cases o with
  | none => exact List.Sublist.refl ps
  | some c2 => exact List.filter_sublist ps

/-! ## Stability of the sort (claim C2) -/

theorem filter_key_orderedInsert (k : Product → Int) (t : Int) (a : Product) :
    ∀ ys : List Product,
      List.filter (fun p => decide (k p = t))
          (List.orderedInsert (fun x y => k y ≤ k x) a ys) =
        (if k a = t then [a] else []) ++
          List.filter (fun p => decide (k p = t)) ys := by
  intro ys
  induction ys with
  | nil =>
    by_cases hk : k a = t <;> simp [List.orderedInsert, hk]
  | cons b ys ih =>
    by_cases hr : k b ≤ k a
    · simp only [List.orderedInsert, if_pos hr]
      by_cases ha : k a = t <;> simp [List.filter_cons, ha]
    · simp only [List.orderedInsert, if_neg hr]
      have hlt : k a < k b := not_le.mp hr
      by_cases hb : k b = t
      · have ha : ¬ (k a = t) := by
          intro ha
          rw [ha, ← hb] at hlt
          exact lt_irrefl _ hlt
        simp [List.filter_cons, hb, ha, ih]
      · simp [List.filter_cons, hb, ih]

theorem filter_key_insertionSort (k : Product → Int) (t : Int) :
    ∀ l : List Product,
      List.filter (fun p => decide (k p = t))
          (List.insertionSort (fun x y => k y ≤ k x) l) =
        List.filter (fun p => decide (k p = t)) l := by
  intro l
  induction l with
  | nil => rfl
  | cons a l ih =>
    rw [List.insertionSort, filter_key_orderedInsert, ih]
    by_cases ha : k a = t <;> simp [List.filter_cons, ha]

/--
Claim C2: the sorted list is a permutation of the flattened list, it is
weakly descending in the parsed start date, and the sort is stable: for every
timestamp `t`, the subsequence of items with that start key is unchanged,
i.e. items with identical start timestamps keep the encounter order of
`flattenBundles` (which concatenates categories in the fixed order books,
games, software — absent categories contributing nothing — then sections in
list order, then products in list order).
-/
theorem C2_sorted_stable :
    ∀ (pd : Str → Int) (d : BundleData),
      (sortBundles pd (flattenBundles d)).Perm (flattenBundles d) ∧
      List.Sorted (fun a b => pd b.start_date ≤ pd a.start_date)
        (sortBundles pd (flattenBundles d)) ∧
      ∀ t : Int,
        List.filter (fun p => decide (pd p.start_date = t))
            (sortBundles pd (flattenBundles d)) =
          List.filter (fun p => decide (pd p.start_date = t))
            (flattenBundles d) := by
  intro pd d
  refine ⟨List.perm_insertionSort _ _, ?_, fun t => ?_⟩
  · haveI : IsTotal Product (fun a b => pd b.start_date ≤ pd a.start_date) :=
      ⟨fun a b => le_total _ _⟩
    haveI : IsTrans Product (fun a b => pd b.start_date ≤ pd a.start_date) :=
      ⟨fun a b c hab hbc => le_trans hbc hab⟩
    exact List.sorted_insertionSort _ _
  · exact filter_key_insertionSort (fun p => pd p.start_date) t (flattenBundles d)

/-! ## Escaping lemmas (claims C4, C8) -/

theorem replaceAll_append (c : Char) (r : Str) :
    ∀ s t : Str, replaceAll c r (s ++ t) = replaceAll c r s ++ replaceAll c r t := by
  intro s t
  induction s with
  | nil => rfl
  | cons d rest ih => simp [replaceAll, ih, List.append_assoc]

theorem escapeXml_append (s t : Str) :
    escapeXml (s ++ t) = escapeXml s ++ escapeXml t := by
  simp [escapeXml, replaceAll_append]

theorem escapeHtml_append (s t : Str) :
    escapeHtml (s ++ t) = escapeHtml s ++ escapeHtml t := by
  simp [escapeHtml, replaceAll_append]

theorem escapeXml_char (c : Char) : escapeXml [c] = escXmlCharSpec c := by
  by_cases h1 : c = '&'
  · subst h1; decide
  · by_cases h2 : c = '<'
    · subst h2; decide
    · by_cases h3 : c = '>'
      · subst h3; decide
      · by_cases h4 : c = '"'
        · subst h4; decide
        · by_cases h5 : c = apos
          · subst h5; decide
          · simp [escapeXml, replaceAll, escXmlCharSpec, h1, h2, h3, h4, h5]

theorem escapeHtml_char (c : Char) : escapeHtml [c] = escHtmlCharSpec c := by
  by_cases h1 : c = '&'
  · subst h1; decide
  · by_cases h2 : c = '<'
    · subst h2; decide
    · by_cases h3 : c = '>'
      · subst h3; decide
      · by_cases h4 : c = '"'
        · subst h4; decide
        · simp [escapeHtml, replaceAll, escHtmlCharSpec, h1, h2, h3, h4]

theorem escapeXml_eq_concatMap (s : Str) :
    escapeXml s = concatMap escXmlCharSpec s := by
  induction s with
  | nil => rfl
  | cons c rest ih =>
    have h : c :: rest = [c] ++ rest := rfl
    rw [h, escapeXml_append, escapeXml_char, ih]
    rfl

theorem escapeHtml_eq_concatMap (s : Str) :
    escapeHtml s = concatMap escHtmlCharSpec s := by
  induction s with
  | nil => rfl
  | cons c rest ih =>
    have h : c :: rest = [c] ++ rest := rfl
    rw [h, escapeHtml_append, escapeHtml_char, ih]
    rfl

theorem leadsWith_append_self : ∀ p x : Str, leadsWith p (p ++ x) = true := by
  intro p x
  induction p with
  | nil => rfl
  | cons c cs ih => simp [leadsWith, ih]

theorem containsSub_of_split (pat x y : Str) :
    containsSub pat (x ++ pat ++ y) = true := by
  induction x with
  | nil =>
    cases pat with
    | nil => cases y <;> simp [containsSub, leadsWith]
    | cons c cs =>
      simp only [List.nil_append, List.cons_append, containsSub, Bool.or_eq_true]
      left
      have h := leadsWith_append_self (c :: cs) y
      simpa [List.cons_append] using h
  | cons d x ih =>
    simp only [List.cons_append, containsSub, Bool.or_eq_true]
    right
    exact ih

/--
Claim C4: `escapeXml` rewrites every character through the five-entity table
(`&`→`&amp;`, `<`→`&lt;`, `>`→`&gt;`, `"`→`&quot;`, apostrophe→`&apos;`, all
other characters unchanged, no double-escaping), and each feed item embeds
the escaped form in the title, link, guid and category positions while the
long description text sits raw (unescaped) inside the CDATA wrapper.
-/
theorem C4_feed_escaping :
    (∀ s : Str, escapeXml s = concatMap escXmlCharSpec s) ∧
    (∀ (toUTC fmtEnd : Str → Str) (p : Product),
      rssItem toUTC fmtEnd p =
        itemA ++ escapeXml p.tile_name ++ itemB ++
          escapeXml (origin ++ p.product_url) ++ itemC ++ p.tile_image ++
          itemD ++ p.detailed_marketing_blurb ++ itemE ++ fmtEnd p.end_date ++
          itemF ++ toUTC p.start_date ++ itemG ++ escapeXml p.machine_name ++
          itemH ++ escapeXml p.tile_stamp ++ itemI ∧
      containsSub p.detailed_marketing_blurb (rssItem toUTC fmtEnd p) = true) := by
  refine ⟨escapeXml_eq_concatMap, fun toUTC fmtEnd p => ⟨rfl, ?_⟩⟩
  have hx : rssItem toUTC fmtEnd p =
      (itemA ++ escapeXml p.tile_name ++ itemB ++
        escapeXml (origin ++ p.product_url) ++ itemC ++ p.tile_image ++ itemD) ++
        p.detailed_marketing_blurb ++
        (itemE ++ fmtEnd p.end_date ++ itemF ++ toUTC p.start_date ++ itemG ++
          escapeXml p.machine_name ++ itemH ++ escapeXml p.tile_stamp ++ itemI) := by
    simp [rssItem, List.append_assoc]
  rw [hx]
  exact containsSub_of_split _ _ _

/--
Claim C8: `escapeHtml` rewrites every character through the four-entity table
(`&`, `<`, `>`, `"`; the apostrophe passes through unchanged, unlike the feed
renderer), and each homepage list item embeds the HTML-escaped title, link
and category tag.
-/
theorem C8_homepage_escaping :
    (∀ s : Str, escapeHtml s = concatMap escHtmlCharSpec s) ∧
    escapeHtml [apos] = [apos] ∧
    (∀ (pd : Str → Int) (nowMs : Int) (p : Product),
      homepageItem pd nowMs p =
        hpA ++ statusClass (hoursLeft pd nowMs p) ++ hpB ++
          escapeHtml p.tile_stamp ++ hpC ++
          escapeHtml (origin ++ p.product_url) ++ hpD ++
          escapeHtml p.tile_name ++ hpE ++ escapeHtml p.tile_name ++ hpF) := by
  exact ⟨escapeHtml_eq_concatMap, by decide, fun pd n p => rfl⟩

/--
Claim C6: a non-success upstream status makes the pipeline fail with the
fetch-stage message carrying the status code; a page without the marker
element makes it fail with the extraction-stage message; in both cases the
HTTP handlers turn the failure into a 500 response whose plain-text body
contains the error message.  (The handlers are total functions of the
pipeline outcome — no crash.)
-/
theorem C6_error_handling :
    ∀ (pd : Str → Int) (u : Str → Bool) (jp : Str → Except Str Json)
      (resp : FetchResponse) (now : Str) (toUTC fmtEnd : Str → Str)
      (curl : Str) (cat : Option Str) (nowMs : Int),
      (respOk resp.status = false →
        fetchBundles pd u jp resp =
          Except.error
            (str "Failed to fetch Humble Bundle page: " ++ natStr resp.status) ∧
        containsSub (natStr resp.status)
          (str "Failed to fetch Humble Bundle page: " ++ natStr resp.status) =
            true) ∧
      (respOk resp.status = true → extractScript resp.body = none →
        fetchBundles pd u jp resp =
          Except.error (str "Could not find landingPage-json-data script tag")) ∧
      (∀ e : Str, fetchBundles pd u jp resp = Except.error e →
        handleRssRequest (fetchBundles pd u jp resp) now toUTC fmtEnd curl cat =
          ⟨500, none, none, str "Error generating RSS feed: " ++ e⟩ ∧
        containsSub e (str "Error generating RSS feed: " ++ e) = true ∧
        handleHomepage (fetchBundles pd u jp resp) pd nowMs =
          ⟨500, some (str "text/plain"), none, str "Error: " ++ e⟩ ∧
        containsSub e (str "Error: " ++ e) = true) := by
  intro pd u jp resp now toUTC fmtEnd curl cat nowMs
  refine ⟨fun hok => ⟨?_, ?_⟩, fun hok hex => ?_, fun e he => ?_⟩
  · simp [fetchBundles, hok]
  · have h := containsSub_of_split (natStr resp.status)
      (str "Failed to fetch Humble Bundle page: ") []
    simpa using h
  · simp [fetchBundles, hok, hex]
  · rw [he]
    refine ⟨rfl, ?_, rfl, ?_⟩
    · have h := containsSub_of_split e (str "Error generating RSS feed: ") []
      simpa using h
    · have h := containsSub_of_split e (str "Error: ") []
      simpa using h

/-- Claim C6 witness: a 404 upstream response and a marker-less page, with
the handler output at the fetch failure. -/
theorem C6_error_handling_witness :
    fetchBundles (fun _ => (0 : Int)) (fun _ => true) (fun _ => Except.error [])
        ⟨404, []⟩ =
      Except.error (str "Failed to fetch Humble Bundle page: " ++ natStr 404) ∧
    fetchBundles (fun _ => (0 : Int)) (fun _ => true) (fun _ => Except.error [])
        ⟨200, []⟩ =
      Except.error (str "Could not find landingPage-json-data script tag") ∧
    handleRssRequest
        (fetchBundles (fun _ => (0 : Int)) (fun _ => true)
          (fun _ => Except.error []) ⟨404, []⟩) [] id id [] none =
      ⟨500, none, none,
        str "Error generating RSS feed: " ++
          (str "Failed to fetch Humble Bundle page: " ++ natStr 404)⟩ := by
  have t1 := C6_error_handling (fun _ => (0 : Int)) (fun _ => true)
    (fun _ => Except.error []) ⟨404, []⟩ [] id id [] none 0
  have t2 := C6_error_handling (fun _ => (0 : Int)) (fun _ => true)
    (fun _ => Except.error []) ⟨200, []⟩ [] id id [] none 0
  have h1 := (t1.1 (by decide)).1
  exact ⟨h1, t2.2.1 (by decide) (by decide), (t1.2.2 _ h1).1⟩

/--
Claim C9: exact-path dispatch.  `/` renders the homepage with
`text/html; charset=utf-8` and the shared cache header; `/rss`, `/games`,
`/books`, `/software` answer 200 with `application/rss+xml; charset=utf-8`
and the same cache header on pipeline success; `/favicon.ico` answers 200
`image/svg+xml` with the fixed SVG body; every other path answers 404 with
body `Not Found`.
-/
theorem C9_routing :
    ∀ (pipeline : Except Str (List Product)) (pd : Str → Int) (nowMs : Int)
      (now : Str) (toUTC fmtEnd : Str → Str) (reqOrigin path : Str)
      (ps : List Product),
      (pipeline = Except.ok ps →
        serverFetch pipeline pd nowMs now toUTC fmtEnd reqOrigin (str "/") =
          ⟨200, some (str "text/html; charset=utf-8"), some cacheHeader,
            generateHomepage pd nowMs ps⟩ ∧
        ∀ route ∈ [str "/rss", str "/games", str "/books", str "/software"],
          (serverFetch pipeline pd nowMs now toUTC fmtEnd reqOrigin route).status =
            200 ∧
          (serverFetch pipeline pd nowMs now toUTC fmtEnd reqOrigin
            route).contentType = some (str "application/rss+xml; charset=utf-8") ∧
          (serverFetch pipeline pd nowMs now toUTC fmtEnd reqOrigin
            route).cacheControl = some cacheHeader) ∧
      serverFetch pipeline pd nowMs now toUTC fmtEnd reqOrigin
          (str "/favicon.ico") =
        ⟨200, some (str "image/svg+xml"), some cacheHeader, favicon⟩ ∧
      (path ≠ str "/" → path ≠ str "/rss" → path ≠ str "/games" →
        path ≠ str "/books" → path ≠ str "/software" → path ≠ str "/favicon.ico" →
        serverFetch pipeline pd nowMs now toUTC fmtEnd reqOrigin path =
          ⟨404, none, none, str "Not Found"⟩) := by
  intro pipeline pd nowMs now toUTC fmtEnd reqOrigin path ps
  refine ⟨fun hps => ?_, ?_, fun h1 h2 h3 h4 h5 h6 => ?_⟩
  · subst hps
    refine ⟨rfl, ?_⟩
    intro route hr
    fin_cases hr <;> exact ⟨rfl, rfl, rfl⟩
  · rfl
  · simp [serverFetch, h1, h2, h3, h4, h5, h6]

/-- Claim C9 witness: concrete routes over an empty successful pipeline. -/
theorem C9_routing_witness :
    serverFetch (Except.ok []) (fun _ => (0 : Int)) 0 [] id id [] (str "/") =
      ⟨200, some (str "text/html; charset=utf-8"), some cacheHeader,
        generateHomepage (fun _ => (0 : Int)) 0 []⟩ ∧
    (serverFetch (Except.ok []) (fun _ => (0 : Int)) 0 [] id id []
      (str "/rss")).status = 200 ∧
    serverFetch (Except.ok []) (fun _ => (0 : Int)) 0 [] id id [] (str "/nope") =
      ⟨404, none, none, str "Not Found"⟩ := by
  have t := C9_routing (Except.ok []) (fun _ => (0 : Int)) 0 [] id id []
    (str "/nope") []
  have h := t.1 rfl
  refine ⟨h.1, ?_, ?_⟩
  · exact (h.2 (str "/rss") (by decide)).1
  · exact t.2.2 (by decide) (by decide) (by decide) (by decide) (by decide)
      (by decide)

/-! ## Validation inversion (claim C7) -/

theorem getStrField_ok_inv (path : Str) (fields : List (Str × Json)) (k s : Str)
    (h : getStrField path fields k = Except.ok s) :
    lookupField fields k = some (Json.string s) := by
  cases hl : lookupField fields k with
  | none =>
    simp only [getStrField, hl] at h
    exact Except.noConfusion h
  | some j =>
    cases j with
    | string s2 =>
      simp only [getStrField, hl] at h
      have h2 : s2 = s := by injection h
      rw [h2]
    | null => simp only [getStrField, hl] at h; exact Except.noConfusion h
    | boolean b => simp only [getStrField, hl] at h; exact Except.noConfusion h
    | number n => simp only [getStrField, hl] at h; exact Except.noConfusion h
    | array xs => simp only [getStrField, hl] at h; exact Except.noConfusion h
    | object fs => simp only [getStrField, hl] at h; exact Except.noConfusion h

theorem getStrField_error_path (path : Str) (fields : List (Str × Json))
    (k e : Str) (h : getStrField path fields k = Except.error e) :
    leadsWith path e = true := by
  cases hl : lookupField fields k with
  | none =>
    simp only [getStrField, hl] at h
    have he : path ++ str "." ++ k ++ str ": required" = e := by injection h
    rw [← he]
    simpa [List.append_assoc] using
      leadsWith_append_self path (str "." ++ (k ++ str ": required"))
  | some j =>
    cases j with
    | string s2 =>
      simp only [getStrField, hl] at h
      exact Except.noConfusion h
    | null =>
      simp only [getStrField, hl] at h
      have he : path ++ str "." ++ k ++ str ": expected string" = e := by injection h
      rw [← he]
      simpa [List.append_assoc] using
        leadsWith_append_self path (str "." ++ (k ++ str ": expected string"))
    | boolean b =>
      simp only [getStrField, hl] at h
      have he : path ++ str "." ++ k ++ str ": expected string" = e := by injection h
      rw [← he]
      simpa [List.append_assoc] using
        leadsWith_append_self path (str "." ++ (k ++ str ": expected string"))
    | number n =>
      simp only [getStrField, hl] at h
      have he : path ++ str "." ++ k ++ str ": expected string" = e := by injection h
      rw [← he]
      simpa [List.append_assoc] using
        leadsWith_append_self path (str "." ++ (k ++ str ": expected string"))
    | array xs =>
      simp only [getStrField, hl] at h
      have he : path ++ str "." ++ k ++ str ": expected string" = e := by injection h
      rw [← he]
      simpa [List.append_assoc] using
        leadsWith_append_self path (str "." ++ (k ++ str ": expected string"))
    | object fs =>
      simp only [getStrField, hl] at h
      have he : path ++ str "." ++ k ++ str ": expected string" = e := by injection h
      rw [← he]
      simpa [List.append_assoc] using
        leadsWith_append_self path (str "." ++ (k ++ str ": expected string"))

theorem validateProduct_ok_inv (u : Str → Bool) (path : Str) (j : Json)
    (p : Product) (h : validateProduct u path j = Except.ok p) :
    ∃ fields, j = Json.object fields ∧
      (∀ k ∈ productKeys, ∃ s, lookupField fields k = some (Json.string s)) ∧
      lookupField fields (str "tile_image") = some (Json.string p.tile_image) ∧
      u p.tile_image = true := by
  cases j with
  | null => simp only [validateProduct] at h; exact Except.noConfusion h
  | boolean b => simp only [validateProduct] at h; exact Except.noConfusion h
  | number n => simp only [validateProduct] at h; exact Except.noConfusion h
  | string s => simp only [validateProduct] at h; exact Except.noConfusion h
  | array xs => simp only [validateProduct] at h; exact Except.noConfusion h
  | object fields =>
    simp only [validateProduct] at h
    cases h1 : getStrField path fields (str "machine_name") with
    | error e => simp only [h1] at h; exact Except.noConfusion h
    | ok mn =>
    simp only [h1] at h
    cases h2 : getStrField path fields (str "tile_name") with
    | error e => simp only [h2] at h; exact Except.noConfusion h
    | ok tn =>
    simp only [h2] at h
    cases h3 : getStrField path fields (str "product_url") with
    | error e => simp only [h3] at h; exact Except.noConfusion h
    | ok pu =>
    simp only [h3] at h
    cases h4 : getStrField path fields (str "detailed_marketing_blurb") with
    | error e => simp only [h4] at h; exact Except.noConfusion h
    | ok bl =>
    simp only [h4] at h
    cases h5 : getStrField path fields (str "tile_image") with
    | error e => simp only [h5] at h; exact Except.noConfusion h
    | ok ti =>
    simp only [h5] at h
    cases hu : u ti with
    | false => rw [hu] at h; simp at h
    | true =>
    rw [hu, if_pos rfl] at h
    cases h6 : getStrField path fields (str "start_date|datetime") with
    | error e => simp only [h6] at h; exact Except.noConfusion h
    | ok sd =>
    simp only [h6] at h
    cases h7 : getStrField path fields (str "end_date|datetime") with
    | error e => simp only [h7] at h; exact Except.noConfusion h
    | ok ed =>
    simp only [h7] at h
    cases h8 : getStrField path fields (str "tile_stamp") with
    | error e => simp only [h8] at h; exact Except.noConfusion h
    | ok ts =>
    simp only [h8] at h
    have hp : Product.mk mn tn pu bl ti sd ed ts = p := by injection h
    subst hp
    refine ⟨fields, rfl, ?_, getStrField_ok_inv _ _ _ _ h5, hu⟩
    intro k hk
    simp only [productKeys, List.mem_cons, List.mem_singleton,
      List.not_mem_nil, or_false] at hk
    rcases hk with rfl | rfl | rfl | rfl | rfl | rfl | rfl | rfl
    · exact ⟨mn, getStrField_ok_inv _ _ _ _ h1⟩
    · exact ⟨tn, getStrField_ok_inv _ _ _ _ h2⟩
    · exact ⟨pu, getStrField_ok_inv _ _ _ _ h3⟩
    · exact ⟨bl, getStrField_ok_inv _ _ _ _ h4⟩
    · exact ⟨ti, getStrField_ok_inv _ _ _ _ h5⟩
    · exact ⟨sd, getStrField_ok_inv _ _ _ _ h6⟩
    · exact ⟨ed, getStrField_ok_inv _ _ _ _ h7⟩
    · exact ⟨ts, getStrField_ok_inv _ _ _ _ h8⟩

theorem validateProduct_error_path (u : Str → Bool) (path : Str)
    (fields : List (Str × Json)) (e : Str)
    (h : validateProduct u path (Json.object fields) = Except.error e) :
    leadsWith path e = true := by
  simp only [validateProduct] at h
  cases h1 : getStrField path fields (str "machine_name") with
  | error e2 =>
    simp only [h1] at h
    have he : e2 = e := by injection h
    exact he ▸ getStrField_error_path _ _ _ _ h1
  | ok mn =>
  simp only [h1] at h
  cases h2 : getStrField path fields (str "tile_name") with
  | error e2 =>
    simp only [h2] at h
    have he : e2 = e := by injection h
    exact he ▸ getStrField_error_path _ _ _ _ h2
  | ok tn =>
  simp only [h2] at h
  cases h3 : getStrField path fields (str "product_url") with
  | error e2 =>
    simp only [h3] at h
    have he : e2 = e := by injection h
    exact he ▸ getStrField_error_path _ _ _ _ h3
  | ok pu =>
  simp only [h3] at h
  cases h4 : getStrField path fields (str "detailed_marketing_blurb") with
  | error e2 =>
    simp only [h4] at h
    have he : e2 = e := by injection h
    exact he ▸ getStrField_error_path _ _ _ _ h4
  | ok bl =>
  simp only [h4] at h
  cases h5 : getStrField path fields (str "tile_image") with
  | error e2 =>
    simp only [h5] at h
    have he : e2 = e := by injection h
    exact he ▸ getStrField_error_path _ _ _ _ h5
  | ok ti =>
  simp only [h5] at h
  cases hu : u ti with
  | false =>
    rw [hu] at h
    simp only [Bool.false_eq_true, if_false] at h
    have he : path ++ str ".tile_image: invalid url" = e := by injection h
    rw [← he]
    exact leadsWith_append_self path (str ".tile_image: invalid url")
  | true =>
  rw [hu, if_pos rfl] at h
  cases h6 : getStrField path fields (str "start_date|datetime") with
  | error e2 =>
    simp only [h6] at h
    have he : e2 = e := by injection h
    exact he ▸ getStrField_error_path _ _ _ _ h6
  | ok sd =>
  simp only [h6] at h
  cases h7 : getStrField path fields (str "end_date|datetime") with
  | error e2 =>
    simp only [h7] at h
    have he : e2 = e := by injection h
    exact he ▸ getStrField_error_path _ _ _ _ h7
  | ok ed =>
  simp only [h7] at h
  cases h8 : getStrField path fields (str "tile_stamp") with
  | error e2 =>
    simp only [h8] at h
    have he : e2 = e := by injection h
    exact he ▸ getStrField_error_path _ _ _ _ h8
  | ok ts =>
  simp only [h8] at h
  exact Except.noConfusion h

theorem validateProducts_ok_inv (u : Str → Bool) (path : Str) :
    ∀ (js : List Json) (idx : Nat) (ps : List Product),
      validateProducts u path idx js = Except.ok ps →
      ∀ p ∈ ps, u p.tile_image = true := by
  intro js
  induction js with
  | nil =>
    intro idx ps h p hp
    simp only [validateProducts] at h
    have he : ([] : List Product) = ps := by injection h
    rw [← he] at hp
    simp at hp
  | cons j rest ih =>
    intro idx ps h p hp
    simp only [validateProducts] at h
    cases h1 : validateProduct u (path ++ str "." ++ natStr idx) j with
    | error e => simp only [h1] at h; exact Except.noConfusion h
    | ok q =>
      simp only [h1] at h
      cases h2 : validateProducts u path (idx + 1) rest with
      | error e => simp only [h2] at h; exact Except.noConfusion h
      | ok qs =>
        simp only [h2] at h
        have he : q :: qs = ps := by injection h
        rw [← he] at hp
        rcases List.mem_cons.mp hp with rfl | hmem
        · obtain ⟨fields, -, -, -, hu⟩ := validateProduct_ok_inv _ _ _ _ h1
          exact hu
        · exact ih (idx + 1) qs h2 p hmem

theorem validateSection_ok_inv (u : Str → Bool) (path : Str) (j : Json)
    (s : Section) (h : validateSection u path j = Except.ok s) :
    ∀ p ∈ s.products, u p.tile_image = true := by
  cases j with
  | null => simp only [validateSection] at h; exact Except.noConfusion h
  | boolean b => simp only [validateSection] at h; exact Except.noConfusion h
  | number n => simp only [validateSection] at h; exact Except.noConfusion h
  | string s2 => simp only [validateSection] at h; exact Except.noConfusion h
  | array xs => simp only [validateSection] at h; exact Except.noConfusion h
  | object fields =>
    simp only [validateSection] at h
    split at h
    · rename_i js heq
      cases hv : validateProducts u (path ++ str ".products") 0 js with
      | error e => rw [hv] at h; exact Except.noConfusion h
      | ok ps =>
        rw [hv] at h
        simp only [Except.map] at h
        have he : Section.mk ps = s := by injection h
        subst he
        intro p hp
        exact validateProducts_ok_inv u (path ++ str ".products") js 0 ps hv p hp
    · exact Except.noConfusion h
    · exact Except.noConfusion h

theorem validateSections_ok_inv (u : Str → Bool) (path : Str) :
    ∀ (js : List Json) (idx : Nat) (ss : List Section),
      validateSections u path idx js = Except.ok ss →
      ∀ s ∈ ss, ∀ p ∈ s.products, u p.tile_image = true := by
  intro js
  induction js with
  | nil =>
    intro idx ss h s hs
    simp only [validateSections] at h
    have he : ([] : List Section) = ss := by injection h
    rw [← he] at hs
    simp at hs
  | cons j rest ih =>
    intro idx ss h s hs
    simp only [validateSections] at h
    cases h1 : validateSection u (path ++ str "." ++ natStr idx) j with
    | error e => simp only [h1] at h; exact Except.noConfusion h
    | ok q =>
      simp only [h1] at h
      cases h2 : validateSections u path (idx + 1) rest with
      | error e => simp only [h2] at h; exact Except.noConfusion h
      | ok qs =>
        simp only [h2] at h
        have he : q :: qs = ss := by injection h
        rw [← he] at hs
        rcases List.mem_cons.mp hs with rfl | hmem
        · exact validateSection_ok_inv _ _ _ _ h1
        · exact ih (idx + 1) qs h2 s hmem

theorem validateCategory_ok_inv (u : Str → Bool) (path : Str) (j : Json)
    (c : CategoryGroup) (h : validateCategory u path j = Except.ok c) :
    ∀ s ∈ c.mosaic, ∀ p ∈ s.products, u p.tile_image = true := by
  cases j with
  | null => simp only [validateCategory] at h; exact Except.noConfusion h
  | boolean b => simp only [validateCategory] at h; exact Except.noConfusion h
  | number n => simp only [validateCategory] at h; exact Except.noConfusion h
  | string s2 => simp only [validateCategory] at h; exact Except.noConfusion h
  | array xs => simp only [validateCategory] at h; exact Except.noConfusion h
  | object fields =>
    simp only [validateCategory] at h
    split at h
    · rename_i js heq
      cases hv : validateSections u (path ++ str ".mosaic") 0 js with
      | error e => rw [hv] at h; exact Except.noConfusion h
      | ok ss =>
        rw [hv] at h
        simp only [Except.map] at h
        have he : CategoryGroup.mk ss = c := by injection h
        subst he
        exact validateSections_ok_inv u (path ++ str ".mosaic") js 0 ss hv
    · exact Except.noConfusion h
    · exact Except.noConfusion h

theorem validateOptCat_ok_inv (u : Str → Bool) (path : Str) (oj : Option Json)
    (oc : Option CategoryGroup) (h : validateOptCat u path oj = Except.ok oc) :
    ∀ c, oc = some c → ∀ s ∈ c.mosaic, ∀ p ∈ s.products, u p.tile_image = true := by
  intro c hc
  cases oj with
  | none =>
    simp only [validateOptCat] at h
    have he : (none : Option CategoryGroup) = oc := by injection h
    rw [← he] at hc
    exact Option.noConfusion hc
  | some j =>
    simp only [validateOptCat] at h
    cases hv : validateCategory u path j with
    | error e => rw [hv] at h; exact Except.noConfusion h
    | ok c2 =>
      rw [hv] at h
      simp only [Except.map] at h
      have he : some c2 = oc := by injection h
      rw [← he] at hc
      have hcc : c2 = c := by injection hc
      subst hcc
      exact validateCategory_ok_inv u path j c2 hv

theorem mem_sectionsProducts (p : Product) :
    ∀ ss : List Section, p ∈ sectionsProducts ss → ∃ s ∈ ss, p ∈ s.products := by
  intro ss
  induction ss with
  | nil => intro hp; simp [sectionsProducts] at hp
  | cons s rest ih =>
    intro hp
    simp only [sectionsProducts] at hp
    rcases List.mem_append.mp hp with h | h
    · exact ⟨s, List.mem_cons_self s rest, h⟩
    · obtain ⟨s2, hs2, hp2⟩ := ih h
      exact ⟨s2, List.mem_cons_of_mem s hs2, hp2⟩

theorem catProducts_valid (u : Str → Bool) (path : Str) (oj : Option Json)
    (oc : Option CategoryGroup) (h : validateOptCat u path oj = Except.ok oc) :
    ∀ p ∈ catProducts oc, u p.tile_image = true := by
  intro p hp
  cases oc with
  | none => simp [catProducts] at hp
  | some c =>
    obtain ⟨s, hs, hps⟩ := mem_sectionsProducts p c.mosaic hp
    exact validateOptCat_ok_inv u path oj (some c) h c rfl s hs p hps

theorem validateBundleData_ok_inv (u : Str → Bool) (j : Json) (d : BundleData)
    (h : validateBundleData u j = Except.ok d) :
    ∀ p ∈ flattenBundles d, u p.tile_image = true := by
  cases j with
  | null => simp only [validateBundleData] at h; exact Except.noConfusion h
  | boolean b => simp only [validateBundleData] at h; exact Except.noConfusion h
  | number n => simp only [validateBundleData] at h; exact Except.noConfusion h
  | string s2 => simp only [validateBundleData] at h; exact Except.noConfusion h
  | array xs => simp only [validateBundleData] at h; exact Except.noConfusion h
  | object fields =>
    simp only [validateBundleData] at h
    cases hb : validateOptCat u (str "data.books")
        (lookupField fields (str "books")) with
    | error e => simp only [hb] at h; exact Except.noConfusion h
    | ok b =>
    simp only [hb] at h
    cases hg : validateOptCat u (str "data.games")
        (lookupField fields (str "games")) with
    | error e => simp only [hg] at h; exact Except.noConfusion h
    | ok g =>
    simp only [hg] at h
    cases hs : validateOptCat u (str "data.software")
        (lookupField fields (str "software")) with
    | error e => simp only [hs] at h; exact Except.noConfusion h
    | ok so =>
    simp only [hs] at h
    have he : BundleData.mk b g so = d := by injection h
    subst he
    intro p hp
    simp only [flattenBundles] at hp
    rcases List.mem_append.mp hp with hp12 | hp3
    · rcases List.mem_append.mp hp12 with hp1 | hp2
      · exact catProducts_valid u _ _ _ hb p hp1
      · exact catProducts_valid u _ _ _ hg p hp2
    · exact catProducts_valid u _ _ _ hs p hp3

theorem validateLandingPage_ok_inv (u : Str → Bool) (j : Json)
    (lp : LandingPage) (h : validateLandingPage u j = Except.ok lp) :
    ∀ p ∈ flattenBundles lp.data, u p.tile_image = true := by
  cases j with
  | null => simp only [validateLandingPage] at h; exact Except.noConfusion h
  | boolean b => simp only [validateLandingPage] at h; exact Except.noConfusion h
  | number n => simp only [validateLandingPage] at h; exact Except.noConfusion h
  | string s2 => simp only [validateLandingPage] at h; exact Except.noConfusion h
  | array xs => simp only [validateLandingPage] at h; exact Except.noConfusion h
  | object fields =>
    simp only [validateLandingPage] at h
    cases hl : lookupField fields (str "data") with
    | none => simp only [hl] at h; exact Except.noConfusion h
    | some dj =>
      simp only [hl] at h
      cases hv : validateBundleData u dj with
      | error e => rw [hv] at h; exact Except.noConfusion h
      | ok d =>
        rw [hv] at h
        simp only [Except.map] at h
        have he : LandingPage.mk d = lp := by injection h
        subst he
        exact validateBundleData_ok_inv u dj d hv

theorem fetchBundles_ok_inv (pd : Str → Int) (u : Str → Bool)
    (jp : Str → Except Str Json) (resp : FetchResponse) (ps : List Product)
    (h : fetchBundles pd u jp resp = Except.ok ps) :
    ∀ p ∈ ps, u p.tile_image = true := by
  simp only [fetchBundles] at h
  cases hok : respOk resp.status with
  | false =>
    rw [hok] at h
    simp at h
  | true =>
    rw [hok, if_pos rfl] at h
    cases hex : extractScript resp.body with
    | none => simp only [hex] at h; exact Except.noConfusion h
    | some raw =>
      simp only [hex] at h
      cases hj : jp raw with
      | error e => simp only [hj] at h; exact Except.noConfusion h
      | ok j =>
        simp only [hj] at h
        cases hv : validateLandingPage u j with
        | error e => simp only [hv] at h; exact Except.noConfusion h
        | ok lp =>
          simp only [hv] at h
          have he : sortBundles pd (flattenBundles lp.data) = ps := by injection h
          subst he
          intro p hp
          have hperm := List.perm_insertionSort
            (fun a b => pd b.start_date ≤ pd a.start_date) (flattenBundles lp.data)
          exact validateLandingPage_ok_inv u j lp hv p (hperm.mem_iff.mp hp)

theorem malformedProduct_not_ok (u : Str → Bool) (path : Str)
    (pflds : List (Str × Json)) (hbad : malformedProduct u pflds) :
    ∀ p : Product, validateProduct u path (Json.object pflds) ≠ Except.ok p := by
  intro p hok
  obtain ⟨fields2, heq, hkeys, hsti, hu2⟩ := validateProduct_ok_inv u path _ p hok
  have hf : pflds = fields2 := by injection heq
  subst hf
  rcases hbad with ⟨k, hk, hnone | ⟨v, hv, hvs⟩⟩ | ⟨ti, hti, hu⟩
  · obtain ⟨s, hs⟩ := hkeys k hk
    rw [hnone] at hs
    exact Option.noConfusion hs
  · obtain ⟨s, hs⟩ := hkeys k hk
    rw [hv] at hs
    have hvs2 : v = Json.string s := by injection hs
    exact hvs s hvs2
  · rw [hti] at hsti
    have h3 : Json.string ti = Json.string p.tile_image := by injection hsti
    have ht2 : ti = p.tile_image := by injection h3
    rw [ht2] at hu
    rw [hu] at hu2
    exact Bool.noConfusion hu2

theorem validateProducts_bad (u : Str → Bool) (path : Str)
    (pflds : List (Str × Json)) (hbad : malformedProduct u pflds) :
    ∀ prods : List Json, Json.object pflds ∈ prods →
      ∀ idx : Nat, ∃ e, validateProducts u path idx prods = Except.error e := by
  intro prods
  induction prods with
  | nil => intro hmem; exact absurd hmem (List.not_mem_nil _)
  | cons j rest ih =>
    intro hmem idx
    cases hv : validateProduct u (path ++ str "." ++ natStr idx) j with
    | error e => exact ⟨e, by simp only [validateProducts, hv]⟩
    | ok p =>
      rcases List.mem_cons.mp hmem with heq | hmem2
      · rw [← heq] at hv
        exact absurd hv (malformedProduct_not_ok u _ pflds hbad p)
      · obtain ⟨e, he⟩ := ih hmem2 (idx + 1)
        exact ⟨e, by simp only [validateProducts, hv, he]⟩

theorem validateSection_bad (u : Str → Bool) (sfields : List (Str × Json))
    (prods : List Json) (pflds : List (Str × Json))
    (hlook : lookupField sfields (str "products") = some (Json.array prods))
    (hmem : Json.object pflds ∈ prods) (hbad : malformedProduct u pflds) :
    ∀ path : Str,
      ∃ e, validateSection u path (Json.object sfields) = Except.error e := by
  intro path
  obtain ⟨e, he⟩ :=
    validateProducts_bad u (path ++ str ".products") pflds hbad prods hmem 0
  exact ⟨e, by simp only [validateSection, hlook, he, Except.map]⟩

theorem validateSections_bad (u : Str → Bool) (sJson : Json)
    (hbadSec : ∀ path : Str, ∃ e, validateSection u path sJson = Except.error e) :
    ∀ sections : List Json, sJson ∈ sections →
      ∀ (path : Str) (idx : Nat),
        ∃ e, validateSections u path idx sections = Except.error e := by
  intro sections
  induction sections with
  | nil => intro hmem; exact absurd hmem (List.not_mem_nil _)
  | cons j rest ih =>
    intro hmem path idx
    cases hv : validateSection u (path ++ str "." ++ natStr idx) j with
    | error e => exact ⟨e, by simp only [validateSections, hv]⟩
    | ok s =>
      rcases List.mem_cons.mp hmem with heq | hmem2
      · obtain ⟨e2, he2⟩ := hbadSec (path ++ str "." ++ natStr idx)
        rw [← heq] at hv
        rw [hv] at he2
        exact Except.noConfusion he2
      · obtain ⟨e, he⟩ := ih hmem2 path (idx + 1)
        exact ⟨e, by simp only [validateSections, hv, he]⟩

theorem validateCategory_bad (u : Str → Bool) (cfields : List (Str × Json))
    (sections : List Json) (sJson : Json)
    (hlook : lookupField cfields (str "mosaic") = some (Json.array sections))
    (hmem : sJson ∈ sections)
    (hbadSec : ∀ path : Str, ∃ e, validateSection u path sJson = Except.error e) :
    ∀ path : Str,
      ∃ e, validateCategory u path (Json.object cfields) = Except.error e := by
  intro path
  obtain ⟨e, he⟩ :=
    validateSections_bad u sJson hbadSec sections hmem (path ++ str ".mosaic") 0
  exact ⟨e, by simp only [validateCategory, hlook, he, Except.map]⟩

theorem validateOptCat_bad (u : Str → Bool) (catJson : Json)
    (hbadCat : ∀ path : Str,
      ∃ e, validateCategory u path catJson = Except.error e) :
    ∀ path : Str,
      ∃ e, validateOptCat u path (some catJson) = Except.error e := by
  intro path
  obtain ⟨e, he⟩ := hbadCat path
  exact ⟨e, by simp only [validateOptCat, he, Except.map]⟩

theorem validateBundleData_bad (u : Str → Bool) (dfields : List (Str × Json))
    (catKey : Str) (catJson : Json)
    (hkey : catKey ∈ [str "books", str "games", str "software"])
    (hlook : lookupField dfields catKey = some catJson)
    (hbadCat : ∀ path : Str,
      ∃ e, validateCategory u path catJson = Except.error e) :
    ∃ e, validateBundleData u (Json.object dfields) = Except.error e := by
  simp only [List.mem_cons, List.mem_singleton, List.not_mem_nil, or_false] at hkey
  rcases hkey with rfl | rfl | rfl
  · obtain ⟨e, he⟩ := validateOptCat_bad u catJson hbadCat (str "data.books")
    exact ⟨e, by simp only [validateBundleData, hlook, he]⟩
  · cases hb : validateOptCat u (str "data.books")
        (lookupField dfields (str "books")) with
    | error e2 => exact ⟨e2, by simp only [validateBundleData, hb]⟩
    | ok b =>
      obtain ⟨e, he⟩ := validateOptCat_bad u catJson hbadCat (str "data.games")
      exact ⟨e, by simp only [validateBundleData, hb, hlook, he]⟩
  · cases hb : validateOptCat u (str "data.books")
        (lookupField dfields (str "books")) with
    | error e2 => exact ⟨e2, by simp only [validateBundleData, hb]⟩
    | ok b =>
      cases hg : validateOptCat u (str "data.games")
          (lookupField dfields (str "games")) with
      | error e2 => exact ⟨e2, by simp only [validateBundleData, hb, hg]⟩
      | ok g =>
        obtain ⟨e, he⟩ :=
          validateOptCat_bad u catJson hbadCat (str "data.software")
        exact ⟨e, by simp only [validateBundleData, hb, hg, hlook, he]⟩

theorem validateLandingPage_bad (u : Str → Bool) (pfields : List (Str × Json))
    (dJson : Json) (hlook : lookupField pfields (str "data") = some dJson)
    (hbadData : ∃ e, validateBundleData u dJson = Except.error e) :
    ∃ e, validateLandingPage u (Json.object pfields) = Except.error e := by
  obtain ⟨e, he⟩ := hbadData
  exact ⟨e, by simp only [validateLandingPage, hlook, he, Except.map]⟩

theorem fetchBundles_validation_error (pd : Str → Int) (u : Str → Bool)
    (jp : Str → Except Str Json) (resp : FetchResponse) (raw : Str)
    (payload : Json) (e : Str) (hok : respOk resp.status = true)
    (hex : extractScript resp.body = some raw)
    (hjp : jp raw = Except.ok payload)
    (hval : validateLandingPage u payload = Except.error e) :
    fetchBundles pd u jp resp = Except.error e := by
  simp only [fetchBundles]
  rw [hok, if_pos rfl]
  simp only [hex, hjp, hval]

/--
Claim C7: validation is all-or-nothing.  (1) If the payload validates, every
product surfaced (in particular its image URL) passed the checks; (2) every
product-level validation error message names the offending path; (3) a
malformed product object — a required key missing, or stored with a
non-string value, or with an image URL failing the URL check — cannot
validate; (4) a payload containing such a malformed product at any reachable
category/section/product position fails validation as a whole, and the fetch
pipeline over it can never return an item list (the whole request fails, no
items are surfaced); (5) category keys entirely absent from the payload are
skipped without error; (6) at pipeline level, items reach a renderer only
when the whole payload validated, so every surfaced item passed the
image-URL check.
-/
theorem C7_validation :
    (∀ (u : Str → Bool) (j : Json) (lp : LandingPage),
      validateLandingPage u j = Except.ok lp →
      ∀ p ∈ flattenBundles lp.data, u p.tile_image = true) ∧
    (∀ (u : Str → Bool) (path : Str) (fields : List (Str × Json)) (e : Str),
      validateProduct u path (Json.object fields) = Except.error e →
      leadsWith path e = true) ∧
    (∀ (u : Str → Bool) (path : Str) (pflds : List (Str × Json)),
      malformedProduct u pflds →
      ∀ p : Product, validateProduct u path (Json.object pflds) ≠ Except.ok p) ∧
    (∀ (u : Str → Bool)
      (pfields dfields cfields sfields pflds : List (Str × Json))
      (catKey : Str) (sections prods : List Json),
      catKey ∈ [str "books", str "games", str "software"] →
      lookupField pfields (str "data") = some (Json.object dfields) →
      lookupField dfields catKey = some (Json.object cfields) →
      lookupField cfields (str "mosaic") = some (Json.array sections) →
      Json.object sfields ∈ sections →
      lookupField sfields (str "products") = some (Json.array prods) →
      Json.object pflds ∈ prods →
      malformedProduct u pflds →
      (∃ e, validateLandingPage u (Json.object pfields) = Except.error e) ∧
      ∀ (pd : Str → Int) (jp : Str → Except Str Json) (resp : FetchResponse)
        (raw : Str) (ps : List Product),
        respOk resp.status = true → extractScript resp.body = some raw →
        jp raw = Except.ok (Json.object pfields) →
        fetchBundles pd u jp resp ≠ Except.ok ps) ∧
    (∀ (u : Str → Bool) (fields : List (Str × Json)) (g s : Option CategoryGroup),
      lookupField fields (str "books") = none →
      validateOptCat u (str "data.games") (lookupField fields (str "games")) =
        Except.ok g →
      validateOptCat u (str "data.software")
        (lookupField fields (str "software")) = Except.ok s →
      validateBundleData u (Json.object fields) = Except.ok ⟨none, g, s⟩) ∧
    (∀ (pd : Str → Int) (u : Str → Bool) (jp : Str → Except Str Json)
      (resp : FetchResponse) (ps : List Product),
      fetchBundles pd u jp resp = Except.ok ps →
      ∀ p ∈ ps, u p.tile_image = true) := by
  refine ⟨validateLandingPage_ok_inv, validateProduct_error_path,
    malformedProduct_not_ok, ?_, fun u fields g s hb hg hs => ?_,
    fetchBundles_ok_inv⟩
  · intro u pfields dfields cfields sfields pflds catKey sections prods
      hkey hd hc hm hsec hp hprod hbad
    have hbadSec := validateSection_bad u sfields prods pflds hp hprod hbad
    have hbadCat :=
      validateCategory_bad u cfields sections (Json.object sfields) hm hsec hbadSec
    have hbadData :=
      validateBundleData_bad u dfields catKey (Json.object cfields) hkey hc hbadCat
    have hbadLp :=
      validateLandingPage_bad u pfields (Json.object dfields) hd hbadData
    refine ⟨hbadLp, ?_⟩
    intro pd jp resp raw ps hok hex hjp hfetch
    obtain ⟨e, he⟩ := hbadLp
    have herr : fetchBundles pd u jp resp = Except.error e :=
      fetchBundles_validation_error pd u jp resp raw _ e hok hex hjp he
    rw [herr] at hfetch
    exact Except.noConfusion hfetch
  · have h0 : validateOptCat u (str "data.books") (none : Option Json) =
        Except.ok none := rfl
    simp only [validateBundleData, hb]
    rw [h0, hg, hs]

/-- Claim C7 witness: the empty product object (missing every required field)
cannot validate; a payload containing it fails validation as a whole, at a
concrete upstream response the pipeline returns an error, not an item list;
and a payload object with no category keys validates to the empty bundle
data. -/
theorem C7_validation_witness :
    (∀ p : Product,
      validateProduct (fun _ => true) [] (Json.object []) ≠ Except.ok p) ∧
    (∃ e, validateLandingPage (fun _ => true) badPayload = Except.error e) ∧
    (∀ ps : List Product,
      fetchBundles (fun _ => (0 : Int)) (fun _ => true)
        (fun _ => Except.ok badPayload) ⟨200, sampleHtml⟩ ≠ Except.ok ps) ∧
    validateBundleData (fun _ => true) (Json.object []) =
      Except.ok ⟨none, none, none⟩ := by
  have t := C7_validation
  have hbad : malformedProduct (fun _ => true) [] :=
    Or.inl ⟨str "machine_name", by decide, Or.inl rfl⟩
  have h4 := t.2.2.2.1 (fun _ => true)
    [(str "data", Json.object
      [(str "games", Json.object
        [(str "mosaic", Json.array
          [Json.object [(str "products", Json.array [badProductJson])]])])])]
    [(str "games", Json.object
      [(str "mosaic", Json.array
        [Json.object [(str "products", Json.array [badProductJson])]])])]
    [(str "mosaic", Json.array
      [Json.object [(str "products", Json.array [badProductJson])]])]
    [(str "products", Json.array [badProductJson])] []
    (str "games")
    [Json.object [(str "products", Json.array [badProductJson])]]
    [badProductJson]
    (by decide) rfl rfl rfl (List.mem_singleton.mpr rfl) rfl
    (List.mem_singleton.mpr rfl) hbad
  refine ⟨t.2.2.1 (fun _ => true) [] [] hbad, h4.1, ?_, ?_⟩
  · intro ps
    exact h4.2 (fun _ => (0 : Int)) (fun _ => Except.ok badPayload)
      ⟨200, sampleHtml⟩ (str "PAYLOAD") ps (by decide) (by decide) rfl
  · exact t.2.2.2.2.1 (fun _ => true) [] none none rfl rfl rfl

set_option maxRecDepth 10000 in
/--
Claim C5: over the sample payload (one games product `sku1`, title
`Cool & Fun Game`, url `/games/sku1`), the `/games` feed is a 200 response
containing exactly one `<item>`, whose link is
`https://www.humblebundle.com/games/sku1`, whose guid is `sku1`, whose
category is `games`, and whose title renders as `Cool &amp; Fun Game`;
the `/books` feed over the same payload contains zero items.
-/
theorem C5_end_to_end :
    gamesResp.status = 200 ∧
    countSub (str "<item>") gamesResp.body = 1 ∧
    containsSub (str "<link>https://www.humblebundle.com/games/sku1</link>")
      gamesResp.body = true ∧
    containsSub (str "<guid isPermaLink=\"false\">sku1</guid>")
      gamesResp.body = true ∧
    containsSub (str "<category>games</category>") gamesResp.body = true ∧
    containsSub (str "<title>Cool &amp; Fun Game</title>")
      gamesResp.body = true ∧
    booksResp.status = 200 ∧
    countSub (str "<item>") booksResp.body = 0 := by decide

end HumbleRss
